import Mathlib

/-!
Verification of the payment-and-ledger core of the scraping-backend
repository (`payments/views.py`, `payments/models.py`, `accounts/models.py`).

The Django models and views are shallowly embedded: database tables become
lists of records, `Model.objects.filter(...).first()` becomes `List.find?`,
`obj.save()` becomes a map that replaces the row with the matching primary
key, and the body of each view/webhook handler becomes a pure function from
a database state (plus the external gateway's answers) to a new database
state.
-/

namespace ScrapingBackend

/-- Payment.STATUS_CHOICES in payments/models.py. -/
inductive PaymentStatus
  | pending
  | completed
  | failed
  | refunded
deriving DecidableEq, Repr

/-- Transaction.TRANSACTION_TYPES in accounts/models.py. -/
inductive TransactionType
  | purchase
  | usage
  | refund
  | bonus
deriving DecidableEq, Repr

/-- Invoice.STATUS_CHOICES in payments/models.py. -/
inductive InvoiceStatus
  | draft
  | opened
  | paid
  | uncollectible
  | voided
deriving DecidableEq, Repr

/-- The accounts.User row, restricted to the fields the payment core touches.
`balance` is the token balance (a fixed-point decimal in the source; modelled
as an integer number of token units, since all settlement mutations add the
integer `token_amount`). -/
structure User where
  id : String
  balance : Int
deriving DecidableEq, Repr

/-- payments.TokenPackage row. -/
structure TokenPackage where
  id : String
  name : String
  tokenAmount : Int
  price : Int
  currency : String
  isActive : Bool
deriving DecidableEq, Repr

/-- payments.Payment row. `id` is the hex form of the UUID primary key
(`payment.id.hex` in the source). `testMode` is `metadata['test_mode']`. -/
structure Payment where
  id : String
  userId : String
  tokenPackageId : Option String
  amount : Int
  currency : String
  tokenAmount : Int
  status : PaymentStatus
  stripePaymentIntentId : String
  stripeChargeId : Option String
  testMode : Bool
  updatedAt : Nat
deriving DecidableEq, Repr

/-- accounts.Transaction row (the ledger entry). -/
structure Transaction where
  userId : String
  transactionType : TransactionType
  amount : Int
  balanceBefore : Int
  balanceAfter : Int
  referenceId : String
deriving DecidableEq, Repr

/-- payments.Invoice row, restricted to the fields the settlement code sets. -/
structure Invoice where
  userId : String
  paymentId : String
  invoiceNumber : String
  status : InvoiceStatus
deriving DecidableEq, Repr

/-- The durable state: the four tables of the payment core plus the token
package catalog, and a logical clock standing for `timezone.now()`. -/
structure DB where
  users : List User
  tokenPackages : List TokenPackage
  payments : List Payment
  transactions : List Transaction
  invoices : List Invoice
  now : Nat
deriving DecidableEq, Repr

/-- Signed value of a ledger entry: purchases, refunds and bonuses credit the
balance, usage debits it. Only `purchase` entries are ever created by the
settlement code. -/
def signedAmount (t : Transaction) : Int :=
  match t.transactionType with
  | TransactionType.usage => -t.amount
  | _ => t.amount

/-- Sum of the signed amounts of all ledger entries of one account. -/
def ledgerSum (ts : List Transaction) (uid : String) : Int :=
  ((ts.filter (fun t => decide (t.userId = uid))).map signedAmount).sum

/-- Read a user's balance (`user.balance`); `0` if the row is absent. -/
def getBalance (us : List User) (uid : String) : Int :=
  match us.find? (fun u => decide (u.id = uid)) with
  | some u => u.balance
  | none => 0

/-- `user.balance += amt; user.save()` — replace the balance of the row with
the given id. -/
def creditUser (us : List User) (uid : String) (amt : Int) : List User :=
  us.map (fun u => if u.id = uid then { u with balance := u.balance + amt } else u)

/-- `payment.save()` — overwrite the row whose primary key matches. -/
def savePayment (ps : List Payment) (p : Payment) : List Payment :=
  ps.map (fun q => if q.id = p.id then p else q)

/-- `token_package.save()` — overwrite the row whose primary key matches. -/
def saveTokenPackage (ts : List TokenPackage) (tp : TokenPackage) : List TokenPackage :=
  ts.map (fun q => if q.id = tp.id then tp else q)

/-- `Payment.objects.filter(stripe_payment_intent_id=ref, status="pending").first()`. -/
def findPendingByIntent (db : DB) (ref : String) : Option Payment :=
  db.payments.find?
    (fun p => decide (p.stripePaymentIntentId = ref ∧ p.status = PaymentStatus.pending))

/-- `Payment.objects.filter(stripe_payment_intent_id__in=refs, status="pending").first()`. -/
def findPendingByRefs (db : DB) (refs : List String) : Option Payment :=
  db.payments.find?
    (fun p => decide (p.stripePaymentIntentId ∈ refs ∧ p.status = PaymentStatus.pending))

/-- Look a payment row up by primary key. -/
def paymentById (db : DB) (pid : String) : Option Payment :=
  db.payments.find? (fun p => decide (p.id = pid))

/-- The invoice number written by settlement — the source computes
`"INV-" + payment.id.hex[:8].upper()`, so it is derived from the first eight
hex characters of the payment id only. Character-level formulation of
take-8-then-uppercase. -/
def invoiceNumber (pid : String) : String :=
  "INV-" ++ String.mk ((pid.data.take 8).map Char.toUpper)

/-- The ledger entry written by the settlement block:
`balance_before` is the user's balance read before the credit, and
`balance_after` is `user.balance` re-read after `user.balance += token_amount`. -/
def settleTransaction (db : DB) (p : Payment) : Transaction :=
  { userId := p.userId
    transactionType := TransactionType.purchase
    amount := p.tokenAmount
    balanceBefore := getBalance db.users p.userId
    balanceAfter := getBalance (creditUser db.users p.userId p.tokenAmount) p.userId
    referenceId := p.id }

/-- The invoice written by the settlement block. -/
def settleInvoice (p : Payment) : Invoice :=
  { userId := p.userId
    paymentId := p.id
    invoiceNumber := invoiceNumber p.id
    status := InvoiceStatus.paid }

/-- The body of the `transaction.atomic()` block shared by
`ConfirmPaymentView.post`, `_handle_payment_intent_succeeded` and
`_handle_checkout_session_completed`: save the already-updated payment row
`p` (status `completed`), credit `p.tokenAmount` to the user's balance,
append the ledger entry and append the invoice. -/
def commitSettlement (db : DB) (p : Payment) : DB :=
  { db with
    payments := savePayment db.payments p
    users := creditUser db.users p.userId p.tokenAmount
    transactions := db.transactions ++ [settleTransaction db p]
    invoices := db.invoices ++ [settleInvoice p]
    now := db.now + 1 }

/-- The failure write of `_handle_payment_intent_failed`: flip the fetched
row to `failed` and bump `updated_at`; nothing else is written. -/
def failSettlement (db : DB) (p : Payment) : DB :=
  { db with
    payments := savePayment db.payments
      { p with status := PaymentStatus.failed, updatedAt := db.now }
    now := db.now + 1 }

/-- `StripeWebhookView._handle_payment_intent_succeeded`. -/
def handlePaymentIntentSucceeded (db : DB) (intentId : String) (chargeId : Option String) : DB :=
  match findPendingByIntent db intentId with
  | none => db
  | some p =>
      commitSettlement db
        { p with status := PaymentStatus.completed, stripeChargeId := chargeId,
                 updatedAt := db.now }

/-- `StripeWebhookView._handle_payment_intent_failed`. -/
def handlePaymentIntentFailed (db : DB) (intentId : String) : DB :=
  match findPendingByIntent db intentId with
  | none => db
  | some p => failSettlement db p

/-- `StripeWebhookView._handle_checkout_session_completed`: the row may be
stored under the session id or the underlying intent id; only proceeds when
the session reports `paid`, reconciling the stored reference to the intent
id when they differ. -/
def handleCheckoutSessionCompleted (db : DB) (sessionId : String)
    (paymentIntentRef : Option String) (paymentStatus : String) : DB :=
  match findPendingByRefs db (sessionId :: paymentIntentRef.toList) with
  | none => db
  | some p =>
      if paymentStatus = "paid" then
        commitSettlement db
          { p with status := PaymentStatus.completed,
                   stripePaymentIntentId := paymentIntentRef.getD p.stripePaymentIntentId,
                   updatedAt := db.now }
      else db

/-- Answer of `stripe.checkout.Session.retrieve`. -/
structure CheckoutSession where
  paymentStatus : String
  paymentIntent : Option String
deriving DecidableEq, Repr

/-- Answer of `stripe.PaymentIntent.retrieve`; `chargeId` is
`charges.data[0].id` when the charge list is non-empty. -/
structure IntentInfo where
  status : String
  chargeId : Option String
deriving DecidableEq, Repr

/-- The external Stripe gateway as seen by `ConfirmPaymentView`: `none`
models a call that raises `stripe.error.StripeError`. -/
structure Gateway where
  retrieveSession : String → Option CheckoutSession
  retrieveIntent : String → Option IntentInfo

/-- Outcome of `ConfirmPaymentView.post`: `confirmed` is the 200 body with
`new_balance`; `notFound` the 404 error "Payment not found or already
processed"; `notCompleted` the 400 error "Payment has not been completed";
`retrieveError` the 400 error for a failed gateway retrieval. -/
inductive ConfirmOutcome
  | confirmed (newBalance : Int)
  | notFound
  | notCompleted
  | retrieveError
deriving DecidableEq, Repr

/-- The settlement block of `ConfirmPaymentView.post`: the charge id is set
from the retrieved intent when it carries one, otherwise the stored value is
kept; the response carries the freshly credited balance. -/
def confirmSettle (db : DB) (payment : Payment) (intentInfo : Option IntentInfo) :
    ConfirmOutcome × DB :=
  let charge :=
    match intentInfo with
    | some info =>
        match info.chargeId with
        | some c => some c
        | none => payment.stripeChargeId
    | none => payment.stripeChargeId
  let db2 := commitSettlement db
    { payment with status := PaymentStatus.completed, stripeChargeId := charge,
                   updatedAt := db.now }
  (ConfirmOutcome.confirmed (getBalance db2.users payment.userId), db2)

/-- The intent-status check of `ConfirmPaymentView.post`: a non-`succeeded`
status or a failed retrieval blocks the settlement only when the payment is
not in test mode. -/
def confirmViaIntent (gw : Gateway) (db : DB) (payment : Payment) (pid : String) :
    ConfirmOutcome × DB :=
  match gw.retrieveIntent pid with
  | none =>
      if payment.testMode then confirmSettle db payment none
      else (ConfirmOutcome.retrieveError, db)
  | some info =>
      if info.status = "succeeded" then confirmSettle db payment (some info)
      else if payment.testMode then confirmSettle db payment (some info)
      else (ConfirmOutcome.notCompleted, db)

/-- `payment_intent_id.startswith('cs_')`, stated on the character list. -/
def startsWithCs (ref : String) : Bool :=
  decide (ref.data.take 3 = ['c', 's', '_'])

/-- `ConfirmPaymentView.post`: look the pending payment up by the provided
reference; a `cs_` reference goes through the checkout session (which must
report `paid`, in every mode) and is then re-resolved to its underlying
payment intent (possibly absent), which is checked via `confirmViaIntent`. -/
def confirmPayment (gw : Gateway) (db : DB) (ref : String) : ConfirmOutcome × DB :=
  match findPendingByIntent db ref with
  | none => (ConfirmOutcome.notFound, db)
  | some payment =>
      if startsWithCs ref then
        match gw.retrieveSession ref with
        | none => (ConfirmOutcome.retrieveError, db)
        | some cs =>
            if cs.paymentStatus = "paid" then
              match cs.paymentIntent with
              | some pid2 => confirmViaIntent gw db payment pid2
              | none => confirmSettle db payment none
            else (ConfirmOutcome.notCompleted, db)
      else confirmViaIntent gw db payment ref

/-- A verified webhook event, after `stripe.Webhook.construct_event`
succeeded, classified by `event.type`. -/
inductive StripeEvent
  | paymentIntentSucceeded (intentId : String) (chargeId : Option String)
  | paymentIntentFailed (intentId : String)
  | checkoutSessionCompleted (sessionId : String) (paymentIntent : Option String)
      (paymentStatus : String)
  | unrecognized (eventType : String)

/-- An inbound webhook request: the signature header may be missing, fail
verification, or verify to an event. -/
inductive WebhookRequest
  | missingSignature
  | badSignature
  | signed (e : StripeEvent)

/-- `StripeWebhookView.post`: 400 with no write when the signature header is
absent or verification fails; otherwise dispatch on the event type and
answer 200, ignoring unrecognized types. -/
def stripeWebhook (db : DB) (req : WebhookRequest) : Nat × DB :=
  match req with
  | WebhookRequest.missingSignature => (400, db)
  | WebhookRequest.badSignature => (400, db)
  | WebhookRequest.signed e =>
      match e with
      | StripeEvent.paymentIntentSucceeded i c => (200, handlePaymentIntentSucceeded db i c)
      | StripeEvent.paymentIntentFailed i => (200, handlePaymentIntentFailed db i)
      | StripeEvent.checkoutSessionCompleted s pi st =>
          (200, handleCheckoutSessionCompleted db s pi st)
      | StripeEvent.unrecognized _ => (200, db)

/-- The request body of `CreatePaymentIntentView.post`, restricted to the
fields that drive the package/payment creation. `reqTokenAmount` and
`reqPrice` are `request.data.get('token_amount')` / `.get('price')`. -/
structure CreateIntentRequest where
  tokenPackageId : String
  isCustom : Bool
  reqTokenAmount : Option Int
  reqPrice : Option Int
  reqCurrency : Option String
  testMode : Bool
deriving DecidableEq, Repr

/-- The package-resolution step of `CreatePaymentIntentView.post`: a custom
request updates the stored package in place with the request-supplied values
(creating it with the request defaults when absent); a standard request
requires an existing active package. Returns the package used for the
snapshot together with the updated state, or `none` for a 404. -/
def resolvePackage (db : DB) (req : CreateIntentRequest) : Option (TokenPackage × DB) :=
  if req.isCustom then
    match db.tokenPackages.find? (fun t => decide (t.id = req.tokenPackageId)) with
    | none =>
        let tp : TokenPackage :=
          { id := req.tokenPackageId
            name := "חבילה מותאמת אישית"
            tokenAmount := req.reqTokenAmount.getD 1000
            price := req.reqPrice.getD 100
            currency := req.reqCurrency.getD "ILS"
            isActive := true }
        some (tp, { db with tokenPackages := db.tokenPackages ++ [tp] })
    | some tp =>
        let tp2 :=
          { tp with tokenAmount := req.reqTokenAmount.getD tp.tokenAmount,
                    price := req.reqPrice.getD tp.price }
        some (tp2, { db with tokenPackages := saveTokenPackage db.tokenPackages tp2 })
  else
    match db.tokenPackages.find?
        (fun t => decide (t.id = req.tokenPackageId ∧ t.isActive = true)) with
    | none => none
    | some tp => some (tp, db)

/-- `CreatePaymentIntentView.post` after the gateway returned the reference
`gatewayRef` (payment intent id or checkout session id): create the pending
payment snapshotting the resolved package's amount, currency and token
count. Returns the created payment id, or `none` for the 404 path. -/
def createPaymentIntent (db : DB) (userId : String) (req : CreateIntentRequest)
    (newPaymentId gatewayRef : String) : Option String × DB :=
  match resolvePackage db req with
  | none => (none, db)
  | some (tp, db1) =>
      let payment : Payment :=
        { id := newPaymentId
          userId := userId
          tokenPackageId := some tp.id
          amount := tp.price
          currency := tp.currency
          tokenAmount := tp.tokenAmount
          status := PaymentStatus.pending
          stripePaymentIntentId := gatewayRef
          stripeChargeId := none
          testMode := req.testMode
          updatedAt := db1.now }
      (some newPaymentId,
       { db1 with payments := db1.payments ++ [payment], now := db1.now + 1 })

/-- A settlement operation, as invocable by the outside world (webhook
delivery or client confirmation). -/
inductive Op
  | settleSuccess (intentId : String) (chargeId : Option String)
  | settleFailure (intentId : String)
  | checkoutCompleted (sessionId : String) (paymentIntent : Option String)
      (paymentStatus : String)
  | confirm (gw : Gateway) (ref : String)

/-- Apply one settlement operation to the state. -/
def applyOp (db : DB) (op : Op) : DB :=
  match op with
  | Op.settleSuccess i c => handlePaymentIntentSucceeded db i c
  | Op.settleFailure i => handlePaymentIntentFailed db i
  | Op.checkoutCompleted s piRef st => handleCheckoutSessionCompleted db s piRef st
  | Op.confirm gw ref => (confirmPayment gw db ref).2

/-- Run a sequence of settlement operations. -/
def run (db : DB) (ops : List Op) : DB :=
  ops.foldl applyOp db

/-- Which settlement a request-handling worker is executing. -/
inductive SettleKind
  | success
  | failure
deriving DecidableEq, Repr

/-- One in-flight settlement request. The handlers first run the pending
lookup (outside any transaction), then — in a separate step — the
`transaction.atomic()` commit block, operating on the payment object fetched
earlier. `fetched = none`: lookup not yet run; `some none`: lookup found
nothing, the handler returns; `some (some p)`: holding the fetched row. -/
structure SettleThread where
  kind : SettleKind
  ref : String
  chargeId : Option String
  fetched : Option (Option Payment)
  finished : Bool
deriving DecidableEq, Repr

/-- One scheduler step of a worker: either the out-of-transaction pending
lookup, or the atomic commit block (one indivisible step, matching
`transaction.atomic()`). -/
def threadStep (db : DB) (t : SettleThread) : DB × SettleThread :=
  if t.finished then (db, t)
  else
    match t.fetched with
    | none => (db, { t with fetched := some (findPendingByIntent db t.ref) })
    | some none => (db, { t with finished := true })
    | some (some p) =>
        match t.kind with
        | SettleKind.success =>
            (commitSettlement db
              { p with status := PaymentStatus.completed, stripeChargeId := t.chargeId,
                       updatedAt := db.now },
             { t with finished := true })
        | SettleKind.failure =>
            (failSettlement db p, { t with finished := true })

/-- Run two workers under a schedule (`false` steps worker 0, `true` steps
worker 1). -/
def runInterleaved : DB → SettleThread → SettleThread → List Bool → DB × SettleThread × SettleThread
  | db, t0, t1, [] => (db, t0, t1)
  | db, t0, t1, false :: rest =>
      let s := threadStep db t0
      runInterleaved s.1 s.2 t1 rest
  | db, t0, t1, true :: rest =>
      let s := threadStep db t1
      runInterleaved s.1 t0 s.2 rest

/-- Structural well-formedness the database schema enforces: primary keys
are unique, and every pending payment's user row exists (foreign key). -/
def WF (db : DB) : Prop :=
  (db.users.map (fun u => u.id)).Nodup ∧
  (db.payments.map (fun p => p.id)).Nodup ∧
  (∀ p ∈ db.payments, p.status = PaymentStatus.pending →
    ∃ u ∈ db.users, u.id = p.userId)

/-- The ledger invariant: every balance is the signed sum of that account's
ledger entries, and every entry is internally consistent. -/
def LedgerInv (db : DB) : Prop :=
  (∀ u ∈ db.users, u.balance = ledgerSum db.transactions u.id) ∧
  (∀ t ∈ db.transactions, t.balanceAfter = t.balanceBefore + signedAmount t)

/-- The invoice invariant: every invoice's payment row exists and is
completed, no payment carries two invoices, and every invoice number is the
deterministic derivation from its payment id. -/
def InvoiceInv (db : DB) : Prop :=
  (∀ inv ∈ db.invoices, ∃ p, paymentById db inv.paymentId = some p ∧
    p.status = PaymentStatus.completed) ∧
  (db.invoices.map (fun inv => inv.paymentId)).Nodup ∧
  (∀ inv ∈ db.invoices, inv.invoiceNumber = invoiceNumber inv.paymentId)

/-- How one operation may change the invoice table: either not at all, or by
appending exactly one paid invoice, with the deterministic number, for a
payment that was pending beforehand. -/
def InvoiceGrowth (db : DB) (op : Op) : Prop :=
  (applyOp db op).invoices = db.invoices ∨
  ∃ inv p, p ∈ db.payments ∧ p.status = PaymentStatus.pending ∧
    (applyOp db op).invoices = db.invoices ++ [inv] ∧
    inv.paymentId = p.id ∧ inv.invoiceNumber = invoiceNumber p.id ∧
    inv.status = InvoiceStatus.paid

/-- The provider reference is an idempotency key: any two payment rows
carrying it are the same row (the spec requires a unique index on it). -/
def RefUnique (db : DB) (ref : String) : Prop :=
  ∀ p ∈ db.payments, ∀ q ∈ db.payments,
    p.stripePaymentIntentId = ref → q.stripePaymentIntentId = ref → p.id = q.id

/-- What C10 asserts of the custom-package branch: after the initiation,
every stored catalog entry with the requested id carries the
request-supplied token count and price, such an entry exists, and the new
pending payment snapshots those request-supplied values. -/
def CustomOverwriteSpec (db : DB) (uid : String) (req : CreateIntentRequest)
    (pidNew gwRef : String) (tp : TokenPackage) (ta pr : Int) : Prop :=
  (∀ t ∈ (createPaymentIntent db uid req pidNew gwRef).2.tokenPackages,
    t.id = req.tokenPackageId → t.tokenAmount = ta ∧ t.price = pr) ∧
  (∃ t ∈ (createPaymentIntent db uid req pidNew gwRef).2.tokenPackages,
    t.id = req.tokenPackageId) ∧
  (createPaymentIntent db uid req pidNew gwRef).2.payments =
    db.payments ++
      [{ id := pidNew, userId := uid, tokenPackageId := some tp.id,
         amount := pr, currency := tp.currency, tokenAmount := ta,
         status := PaymentStatus.pending, stripePaymentIntentId := gwRef,
         stripeChargeId := none, testMode := req.testMode, updatedAt := db.now }]

/-- A concrete account fixture. -/
def exUser : User := { id := "u1", balance := 0 }

/-- A concrete pending payment fixture (id written as a UUID hex string). -/
def exPayment : Payment :=
  { id := "aaaabbbbccccddddeeeeffff00001111"
    userId := "u1"
    tokenPackageId := some "tp1"
    amount := 100
    currency := "ILS"
    tokenAmount := 1000
    status := PaymentStatus.pending
    stripePaymentIntentId := "pi_1"
    stripeChargeId := none
    testMode := false
    updatedAt := 0 }

/-- A concrete state: one account with balance 0 and one pending payment. -/
def exDb : DB :=
  { users := [exUser], tokenPackages := [], payments := [exPayment],
    transactions := [], invoices := [], now := 5 }

/-- The same state with the payment already completed. -/
def exDbCompleted : DB :=
  { exDb with payments := [{ exPayment with status := PaymentStatus.completed }] }

/-- A gateway that reports the intent as succeeded. -/
def exGwOk : Gateway :=
  { retrieveSession := fun _ => none
    retrieveIntent := fun _ => some { status := "succeeded", chargeId := some "ch_1" } }

/-- A gateway that reports a still-processing (not succeeded) intent. -/
def exGwDeclined : Gateway :=
  { retrieveSession := fun _ => none
    retrieveIntent := fun _ => some { status := "processing", chargeId := none } }

/-- A pending payment flagged test-mode in its metadata. -/
def exPaymentTest : Payment :=
  { exPayment with stripePaymentIntentId := "pi_t", testMode := true, tokenAmount := 500 }

/-- State holding the test-mode payment. -/
def exDbTest : DB := { exDb with payments := [exPaymentTest] }

/-- A worker running `settle_success` for `pi_1`. -/
def exThreadSuccess : SettleThread :=
  { kind := SettleKind.success, ref := "pi_1", chargeId := some "ch_9",
    fetched := none, finished := false }

/-- A worker running `settle_failure` for `pi_1`. -/
def exThreadFailure : SettleThread :=
  { kind := SettleKind.failure, ref := "pi_1", chargeId := none,
    fetched := none, finished := false }

/-- Two distinct pending payments whose UUID hex ids agree on the first
eight characters. -/
def exPaymentA : Payment :=
  { exPayment with id := "00000000aaaaaaaaaaaaaaaaaaaaaaaa", stripePaymentIntentId := "pi_a" }

/-- Second payment of the colliding pair. -/
def exPaymentB : Payment :=
  { exPayment with id := "00000000bbbbbbbbbbbbbbbbbbbbbbbb", stripePaymentIntentId := "pi_b" }

/-- State holding the colliding pair. -/
def exDbAB : DB := { exDb with payments := [exPaymentA, exPaymentB] }

/-- A concrete catalog package. -/
def exPackage : TokenPackage :=
  { id := "tp1", name := "Starter", tokenAmount := 500, price := 50,
    currency := "ILS", isActive := true }

/-- State holding the catalog package. -/
def exDbPkg : DB := { exDb with tokenPackages := [exPackage] }

/-- A custom purchase request naming the existing package `tp1` but carrying
its own token count and price. -/
def exCustomReq : CreateIntentRequest :=
  { tokenPackageId := "tp1", isCustom := true, reqTokenAmount := some 9999,
    reqPrice := some 1, reqCurrency := none, testMode := false }

/-- A concrete settlement sequence. -/
def exOps : List Op := [Op.settleSuccess "pi_1" (some "ch_1"), Op.settleFailure "pi_1"]

@[simp]
theorem settleTransaction_userId (db : DB) (p : Payment) :
    (settleTransaction db p).userId = p.userId := rfl

@[simp]
theorem settleTransaction_signed (db : DB) (p : Payment) :
    signedAmount (settleTransaction db p) = p.tokenAmount := rfl

@[simp]
theorem settleInvoice_paymentId (p : Payment) :
    (settleInvoice p).paymentId = p.id := rfl

theorem find?_map_pres {α : Type} (f : α → α) (p : α → Bool)
    (h : ∀ a, p (f a) = p a) :
    ∀ l : List α, (l.map f).find? p = (l.find? p).map f := by
  intro l
  induction l with
  | nil => rfl
  | cons a l ih =>
      cases hpa : p a
      · have hfa : p (f a) = false := by rw [h a, hpa]
        simp [List.find?, hpa, hfa, ih]
      · have hfa : p (f a) = true := by rw [h a, hpa]
        simp [List.find?, hpa, hfa]

theorem creditUser_map_id (us : List User) (uid : String) (amt : Int) :
    (creditUser us uid amt).map (fun u => u.id) = us.map (fun u => u.id) := by
  unfold creditUser
  rw [List.map_map]
  have hfun : ((fun u : User => u.id) ∘
      fun u => if u.id = uid then { u with balance := u.balance + amt } else u) =
      fun u : User => u.id := by
    funext u
    by_cases h : u.id = uid <;> simp [h]
  rw [hfun]

theorem savePayment_map_id (ps : List Payment) (p : Payment) :
    (savePayment ps p).map (fun q => q.id) = ps.map (fun q => q.id) := by
  unfold savePayment
  rw [List.map_map]
  have hfun : ((fun q : Payment => q.id) ∘ fun q => if q.id = p.id then p else q) =
      fun q : Payment => q.id := by
    funext q
    by_cases h : q.id = p.id <;> simp [h]
  rw [hfun]

theorem find?_id_savePayment (ps : List Payment) (p : Payment) (k : String) :
    (savePayment ps p).find? (fun q => decide (q.id = k)) =
      (ps.find? (fun q => decide (q.id = k))).map (fun q => if q.id = p.id then p else q) := by
  unfold savePayment
  exact find?_map_pres _ _ (fun a => by by_cases h : a.id = p.id <;> simp [h]) ps

theorem mem_savePayment_cases (ps : List Payment) (p q2 : Payment)
    (h : q2 ∈ savePayment ps p) :
    q2 = p ∨ (q2 ∈ ps ∧ ¬ q2.id = p.id) := by
  unfold savePayment at h
  obtain ⟨q, hq, rfl⟩ := List.mem_map.mp h
  by_cases hid : q.id = p.id
  · left; rw [if_pos hid]
  · right; rw [if_neg hid]; exact ⟨hq, hid⟩

theorem exists_id_creditUser (us : List User) (uid : String) (amt : Int)
    (u : User) (hu : u ∈ us) :
    ∃ u2 ∈ creditUser us uid amt, u2.id = u.id := by
  unfold creditUser
  refine ⟨_, List.mem_map_of_mem _ hu, ?_⟩
  by_cases h : u.id = uid <;> simp [h]

theorem getBalance_creditUser_self (us : List User) (uid : String) (amt : Int)
    (h : ∃ u ∈ us, u.id = uid) :
    getBalance (creditUser us uid amt) uid = getBalance us uid + amt := by
  unfold getBalance creditUser
  rw [find?_map_pres _ _ (fun a => by by_cases ha : a.id = uid <;> simp [ha]) us]
  obtain ⟨u, hu, hid⟩ := h
  have hsome : (us.find? (fun u => decide (u.id = uid))).isSome := by
    rw [List.find?_isSome]
    exact ⟨u, hu, by simp [hid]⟩
  obtain ⟨v, hv⟩ := Option.isSome_iff_exists.mp hsome
  rw [hv]
  have hvid : v.id = uid := by simpa using List.find?_some hv
  simp [hvid]

theorem getBalance_creditUser_other (us : List User) (uid k : String) (amt : Int)
    (hk : ¬ k = uid) :
    getBalance (creditUser us uid amt) k = getBalance us k := by
  unfold getBalance creditUser
  rw [find?_map_pres _ _ (fun a => by by_cases ha : a.id = uid <;> simp [ha]) us]
  cases hfind : us.find? (fun u => decide (u.id = k)) with
  | none => rfl
  | some v =>
      have hvid : v.id = k := by simpa using List.find?_some hfind
      have hne : ¬ v.id = uid := by rw [hvid]; exact hk
      simp [hne]

theorem ledgerSum_append (ts : List Transaction) (t : Transaction) (k : String) :
    ledgerSum (ts ++ [t]) k =
      ledgerSum ts k + (if t.userId = k then signedAmount t else 0) := by
  unfold ledgerSum
  rw [List.filter_append, List.map_append, List.sum_append]
  by_cases h : t.userId = k <;> simp [h]

theorem findPending_facts {db : DB} {ref : String} {p : Payment}
    (h : findPendingByIntent db ref = some p) :
    p ∈ db.payments ∧ p.stripePaymentIntentId = ref ∧ p.status = PaymentStatus.pending := by
  unfold findPendingByIntent at h
  have hm := List.mem_of_find?_eq_some h
  have hp := List.find?_some h
  simp only [decide_eq_true_eq] at hp
  exact ⟨hm, hp.1, hp.2⟩

theorem findPendingRefs_facts {db : DB} {refs : List String} {p : Payment}
    (h : findPendingByRefs db refs = some p) :
    p ∈ db.payments ∧ p.status = PaymentStatus.pending := by
  unfold findPendingByRefs at h
  have hm := List.mem_of_find?_eq_some h
  have hp := List.find?_some h
  simp only [decide_eq_true_eq] at hp
  exact ⟨hm, hp.2⟩

theorem WF_commitSettlement (db : DB) (p : Payment) (hwf : WF db)
    (hu : ∃ u ∈ db.users, u.id = p.userId) :
    WF (commitSettlement db p) := by
  obtain ⟨hun, hpn, hpu⟩ := hwf
  refine ⟨?_, ?_, ?_⟩
  · show ((creditUser db.users p.userId p.tokenAmount).map _).Nodup
    rw [creditUser_map_id]
    exact hun
  · show ((savePayment db.payments p).map _).Nodup
    rw [savePayment_map_id]
    exact hpn
  · intro q hq hqp
    have hq2 : q ∈ savePayment db.payments p := hq
    rcases mem_savePayment_cases db.payments p q hq2 with rfl | ⟨hqm, _⟩
    · obtain ⟨u, hum, hid⟩ := hu
      obtain ⟨u2, hu2, hu2id⟩ := exists_id_creditUser db.users q.userId q.tokenAmount u hum
      exact ⟨u2, hu2, by rw [hu2id, hid]⟩
    · obtain ⟨u, hum, hid⟩ := hpu q hqm hqp
      obtain ⟨u2, hu2, hu2id⟩ := exists_id_creditUser db.users p.userId p.tokenAmount u hum
      exact ⟨u2, hu2, by rw [hu2id, hid]⟩

theorem LedgerInv_commitSettlement (db : DB) (p : Payment) (hinv : LedgerInv db)
    (hu : ∃ u ∈ db.users, u.id = p.userId) :
    LedgerInv (commitSettlement db p) := by
  obtain ⟨hbal, hent⟩ := hinv
  constructor
  · intro u2 hu2
    show u2.balance = ledgerSum (db.transactions ++ [settleTransaction db p]) u2.id
    rw [ledgerSum_append]
    have hu2' : u2 ∈ creditUser db.users p.userId p.tokenAmount := hu2
    unfold creditUser at hu2'
    obtain ⟨u, humem, rfl⟩ := List.mem_map.mp hu2'
    have hb := hbal u humem
    by_cases h : u.id = p.userId
    · rw [if_pos h]
      rw [h] at hb
      simp only [settleTransaction_userId, settleTransaction_signed]
      have hid : ({ u with balance := u.balance + p.tokenAmount } : User).id = u.id := rfl
      rw [hid, h, if_pos rfl, hb]
    · rw [if_neg h]
      simp only [settleTransaction_userId, settleTransaction_signed]
      rw [if_neg (fun hc => h hc.symm), hb]
      simp
  · intro t ht
    have ht2 : t ∈ db.transactions ++ [settleTransaction db p] := ht
    rcases List.mem_append.mp ht2 with hold | hnew
    · exact hent t hold
    · have heq : t = settleTransaction db p := by simpa using hnew
      subst heq
      show (settleTransaction db p).balanceAfter =
        (settleTransaction db p).balanceBefore + signedAmount (settleTransaction db p)
      rw [settleTransaction_signed]
      show getBalance (creditUser db.users p.userId p.tokenAmount) p.userId =
        getBalance db.users p.userId + p.tokenAmount
      exact getBalance_creditUser_self db.users p.userId p.tokenAmount hu

theorem InvoiceInv_commitSettlement (db : DB) (p : Payment)
    (hpn : (db.payments.map (fun q => q.id)).Nodup)
    (hinv : InvoiceInv db)
    (q : Payment) (hq : q ∈ db.payments) (hqid : q.id = p.id)
    (hqpend : q.status = PaymentStatus.pending)
    (hpc : p.status = PaymentStatus.completed) :
    InvoiceInv (commitSettlement db p) := by
  obtain ⟨hcomp, hnd, hnum⟩ := hinv
  have hfind : ∀ k, paymentById (commitSettlement db p) k =
      (paymentById db k).map (fun r => if r.id = p.id then p else r) := by
    intro k
    show (savePayment db.payments p).find? _ = _
    exact find?_id_savePayment db.payments p k
  have hnotinv : ∀ inv ∈ db.invoices, ¬ inv.paymentId = p.id := by
    intro inv hiv hcontra
    obtain ⟨r, hr, hrc⟩ := hcomp inv hiv
    have hrm : r ∈ db.payments := by
      unfold paymentById at hr
      exact List.mem_of_find?_eq_some hr
    have hrid : r.id = inv.paymentId := by
      unfold paymentById at hr
      have := List.find?_some hr
      simpa using this
    have hrq : r = q := by
      refine List.inj_on_of_nodup_map hpn hrm hq ?_
      rw [hrid, hcontra, hqid]
    rw [hrq, hqpend] at hrc
    cases hrc
  refine ⟨?_, ?_, ?_⟩
  · intro inv hinv2
    have hiv2 : inv ∈ db.invoices ++ [settleInvoice p] := hinv2
    rcases List.mem_append.mp hiv2 with hold | hnew
    · obtain ⟨r, hr, hrc⟩ := hcomp inv hold
      refine ⟨if r.id = p.id then p else r, ?_, ?_⟩
      · rw [hfind, hr]
        rfl
      · by_cases hrid : r.id = p.id
        · rw [if_pos hrid]; exact hpc
        · rw [if_neg hrid]; exact hrc
    · have heq : inv = settleInvoice p := by simpa using hnew
      subst heq
      have hqsome : (paymentById db p.id).isSome := by
        unfold paymentById
        rw [List.find?_isSome]
        exact ⟨q, hq, by simp [hqid]⟩
      obtain ⟨r, hr⟩ := Option.isSome_iff_exists.mp hqsome
      have hrid : r.id = p.id := by
        unfold paymentById at hr
        have := List.find?_some hr
        simpa using this
      refine ⟨p, ?_, hpc⟩
      rw [settleInvoice_paymentId, hfind, hr]
      simp [hrid]
  · show ((db.invoices ++ [settleInvoice p]).map _).Nodup
    rw [List.map_append]
    rw [List.nodup_append]
    refine ⟨hnd, List.nodup_singleton _, ?_⟩
    intro a ha hb
    obtain ⟨inv, hiv, rfl⟩ := List.mem_map.mp ha
    have hab : inv.paymentId = p.id := by
      simpa [settleInvoice] using hb
    exact hnotinv inv hiv hab
  · intro inv hinv2
    have hiv2 : inv ∈ db.invoices ++ [settleInvoice p] := hinv2
    rcases List.mem_append.mp hiv2 with hold | hnew
    · exact hnum inv hold
    · have heq : inv = settleInvoice p := by simpa using hnew
      subst heq
      rfl

theorem WF_failSettlement (db : DB) (p : Payment) (hwf : WF db) :
    WF (failSettlement db p) := by
  obtain ⟨hun, hpn, hpu⟩ := hwf
  refine ⟨hun, ?_, ?_⟩
  · show ((savePayment db.payments _).map _).Nodup
    rw [savePayment_map_id]
    exact hpn
  · intro q hq hqp
    have hq2 : q ∈ savePayment db.payments
        { p with status := PaymentStatus.failed, updatedAt := db.now } := hq
    rcases mem_savePayment_cases _ _ _ hq2 with rfl | ⟨hqm, _⟩
    · cases hqp
    · exact hpu q hqm hqp

theorem LedgerInv_failSettlement (db : DB) (p : Payment) (hinv : LedgerInv db) :
    LedgerInv (failSettlement db p) := hinv

theorem InvoiceInv_failSettlement (db : DB) (p : Payment)
    (hpn : (db.payments.map (fun q => q.id)).Nodup)
    (hinv : InvoiceInv db)
    (hp : p ∈ db.payments) (hpend : p.status = PaymentStatus.pending) :
    InvoiceInv (failSettlement db p) := by
  obtain ⟨hcomp, hnd, hnum⟩ := hinv
  refine ⟨?_, hnd, hnum⟩
  intro inv hiv
  have hiv2 : inv ∈ db.invoices := hiv
  obtain ⟨r, hr, hrc⟩ := hcomp inv hiv2
  have hrm : r ∈ db.payments := by
    unfold paymentById at hr
    exact List.mem_of_find?_eq_some hr
  have hrid2 : ¬ r.id = p.id := by
    intro hcontra
    have hrq : r = p := List.inj_on_of_nodup_map hpn hrm hp hcontra
    rw [hrq, hpend] at hrc
    cases hrc
  refine ⟨r, ?_, hrc⟩
  show (savePayment db.payments { p with status := PaymentStatus.failed, updatedAt := db.now }).find? _ = some r
  rw [find?_id_savePayment]
  have hr2 : db.payments.find? (fun q => decide (q.id = inv.paymentId)) = some r := hr
  rw [hr2]
  simp [hrid2]

theorem confirmSettle_snd (db : DB) (payment : Payment) (info : Option IntentInfo) :
    ∃ ch, (confirmSettle db payment info).2 =
      commitSettlement db { payment with status := PaymentStatus.completed,
                                         stripeChargeId := ch, updatedAt := db.now } := by
  cases info with
  | none => exact ⟨payment.stripeChargeId, rfl⟩
  | some i =>
      cases hci : i.chargeId with
      | none =>
          refine ⟨payment.stripeChargeId, ?_⟩
          simp [confirmSettle, hci]
      | some c =>
          refine ⟨some c, ?_⟩
          simp [confirmSettle, hci]

theorem confirmViaIntent_snd_cases (gw : Gateway) (db : DB) (payment : Payment) (pid : String) :
    (confirmViaIntent gw db payment pid).2 = db ∨
    ∃ ch, (confirmViaIntent gw db payment pid).2 =
      commitSettlement db { payment with status := PaymentStatus.completed,
                                         stripeChargeId := ch, updatedAt := db.now } := by
  unfold confirmViaIntent
  split
  · split
    · rcases confirmSettle_snd db payment none with ⟨ch, hch⟩
      right
      exact ⟨ch, hch⟩
    · left; rfl
  · next info _ =>
      split
      · rcases confirmSettle_snd db payment (some info) with ⟨ch, hch⟩
        right
        exact ⟨ch, hch⟩
      · split
        · rcases confirmSettle_snd db payment (some info) with ⟨ch, hch⟩
          right
          exact ⟨ch, hch⟩
        · left; rfl

theorem confirm_snd_cases (gw : Gateway) (db : DB) (ref : String) :
    (confirmPayment gw db ref).2 = db ∨
    ∃ p ch, findPendingByIntent db ref = some p ∧
      (confirmPayment gw db ref).2 =
        commitSettlement db { p with status := PaymentStatus.completed,
                                     stripeChargeId := ch, updatedAt := db.now } := by
  unfold confirmPayment
  split
  · left; rfl
  · next payment hfind =>
      split
      · split
        · left; rfl
        · next cs _ =>
            split
            · split
              · next pid2 _ =>
                  rcases confirmViaIntent_snd_cases gw db payment pid2 with h | ⟨ch, h⟩
                  · left; exact h
                  · right; exact ⟨payment, ch, hfind, h⟩
              · rcases confirmSettle_snd db payment none with ⟨ch, h⟩
                right
                exact ⟨payment, ch, hfind, h⟩
            · left; rfl
      · rcases confirmViaIntent_snd_cases gw db payment ref with h | ⟨ch, h⟩
        · left; exact h
        · right; exact ⟨payment, ch, hfind, h⟩

theorem WF_applyOp (db : DB) (op : Op) (hwf : WF db) : WF (applyOp db op) := by
  cases op with
  | settleSuccess i c =>
      show WF (handlePaymentIntentSucceeded db i c)
      unfold handlePaymentIntentSucceeded
      cases hfind : findPendingByIntent db i with
      | none => exact hwf
      | some p =>
          obtain ⟨hm, _, hpend⟩ := findPending_facts hfind
          exact WF_commitSettlement db _ hwf (hwf.2.2 p hm hpend)
  | settleFailure i =>
      show WF (handlePaymentIntentFailed db i)
      unfold handlePaymentIntentFailed
      cases hfind : findPendingByIntent db i with
      | none => exact hwf
      | some p => exact WF_failSettlement db p hwf
  | checkoutCompleted s piRef st =>
      show WF (handleCheckoutSessionCompleted db s piRef st)
      unfold handleCheckoutSessionCompleted
      split
      · exact hwf
      · next p hfind =>
          obtain ⟨hm, hpend⟩ := findPendingRefs_facts hfind
          split
          · exact WF_commitSettlement db _ hwf (hwf.2.2 p hm hpend)
          · exact hwf
  | confirm gw ref =>
      show WF (confirmPayment gw db ref).2
      rcases confirm_snd_cases gw db ref with heq | ⟨p, ch, hfind, heq⟩
      · rw [heq]; exact hwf
      · rw [heq]
        obtain ⟨hm, _, hpend⟩ := findPending_facts hfind
        exact WF_commitSettlement db _ hwf (hwf.2.2 p hm hpend)

theorem LedgerInv_applyOp (db : DB) (op : Op) (hwf : WF db) (hinv : LedgerInv db) :
    LedgerInv (applyOp db op) := by
  cases op with
  | settleSuccess i c =>
      show LedgerInv (handlePaymentIntentSucceeded db i c)
      unfold handlePaymentIntentSucceeded
      cases hfind : findPendingByIntent db i with
      | none => exact hinv
      | some p =>
          obtain ⟨hm, _, hpend⟩ := findPending_facts hfind
          exact LedgerInv_commitSettlement db _ hinv (hwf.2.2 p hm hpend)
  | settleFailure i =>
      show LedgerInv (handlePaymentIntentFailed db i)
      unfold handlePaymentIntentFailed
      cases hfind : findPendingByIntent db i with
      | none => exact hinv
      | some p => exact LedgerInv_failSettlement db p hinv
  | checkoutCompleted s piRef st =>
      show LedgerInv (handleCheckoutSessionCompleted db s piRef st)
      unfold handleCheckoutSessionCompleted
      split
      · exact hinv
      · next p hfind =>
          obtain ⟨hm, hpend⟩ := findPendingRefs_facts hfind
          split
          · exact LedgerInv_commitSettlement db _ hinv (hwf.2.2 p hm hpend)
          · exact hinv
  | confirm gw ref =>
      show LedgerInv (confirmPayment gw db ref).2
      rcases confirm_snd_cases gw db ref with heq | ⟨p, ch, hfind, heq⟩
      · rw [heq]; exact hinv
      · rw [heq]
        obtain ⟨hm, _, hpend⟩ := findPending_facts hfind
        exact LedgerInv_commitSettlement db _ hinv (hwf.2.2 p hm hpend)

theorem InvoiceInv_applyOp (db : DB) (op : Op) (hwf : WF db) (hinv : InvoiceInv db) :
    InvoiceInv (applyOp db op) := by
  cases op with
  | settleSuccess i c =>
      show InvoiceInv (handlePaymentIntentSucceeded db i c)
      unfold handlePaymentIntentSucceeded
      cases hfind : findPendingByIntent db i with
      | none => exact hinv
      | some p =>
          obtain ⟨hm, _, hpend⟩ := findPending_facts hfind
          exact InvoiceInv_commitSettlement db _ hwf.2.1 hinv p hm rfl hpend rfl
  | settleFailure i =>
      show InvoiceInv (handlePaymentIntentFailed db i)
      unfold handlePaymentIntentFailed
      cases hfind : findPendingByIntent db i with
      | none => exact hinv
      | some p =>
          obtain ⟨hm, _, hpend⟩ := findPending_facts hfind
          exact InvoiceInv_failSettlement db p hwf.2.1 hinv hm hpend
  | checkoutCompleted s piRef st =>
      show InvoiceInv (handleCheckoutSessionCompleted db s piRef st)
      unfold handleCheckoutSessionCompleted
      split
      · exact hinv
      · next p hfind =>
          obtain ⟨hm, hpend⟩ := findPendingRefs_facts hfind
          split
          · exact InvoiceInv_commitSettlement db _ hwf.2.1 hinv p hm rfl hpend rfl
          · exact hinv
  | confirm gw ref =>
      show InvoiceInv (confirmPayment gw db ref).2
      rcases confirm_snd_cases gw db ref with heq | ⟨p, ch, hfind, heq⟩
      · rw [heq]; exact hinv
      · rw [heq]
        obtain ⟨hm, _, hpend⟩ := findPending_facts hfind
        exact InvoiceInv_commitSettlement db _ hwf.2.1 hinv p hm rfl hpend rfl

theorem WF_run (db : DB) (ops : List Op) (hwf : WF db) : WF (run db ops) := by
  induction ops generalizing db with
  | nil => exact hwf
  | cons op ops ih => exact ih (applyOp db op) (WF_applyOp db op hwf)

theorem LedgerInv_run (db : DB) (ops : List Op) (hwf : WF db) (hinv : LedgerInv db) :
    LedgerInv (run db ops) := by
  induction ops generalizing db with
  | nil => exact hinv
  | cons op ops ih =>
      exact ih (applyOp db op) (WF_applyOp db op hwf) (LedgerInv_applyOp db op hwf hinv)

theorem InvoiceInv_run (db : DB) (ops : List Op) (hwf : WF db) (hinv : InvoiceInv db) :
    InvoiceInv (run db ops) := by
  induction ops generalizing db with
  | nil => exact hinv
  | cons op ops ih =>
      exact ih (applyOp db op) (WF_applyOp db op hwf) (InvoiceInv_applyOp db op hwf hinv)

theorem findPending_after_commit (db : DB) (ref : String) (p : Payment)
    (huniq : RefUnique db ref)
    (hfind : findPendingByIntent db ref = some p)
    (p2 : Payment) (hid : p2.id = p.id) (hst : ¬ p2.status = PaymentStatus.pending)
    (href2 : p2.stripePaymentIntentId = p.stripePaymentIntentId) :
    findPendingByIntent (commitSettlement db p2) ref = none := by
  obtain ⟨hm, href, hpend⟩ := findPending_facts hfind
  show (savePayment db.payments p2).find? _ = none
  rw [List.find?_eq_none]
  intro q hq hdec
  have hconj : q.stripePaymentIntentId = ref ∧ q.status = PaymentStatus.pending := by
    simpa using hdec
  rcases mem_savePayment_cases db.payments p2 q hq with rfl | ⟨hqm, hqid⟩
  · exact hst hconj.2
  · exact hqid ((huniq q hqm p hm hconj.1 href).trans hid.symm)

theorem handleSucceeded_of_none (db : DB) (ref : String) (c : Option String)
    (h : findPendingByIntent db ref = none) :
    handlePaymentIntentSucceeded db ref c = db := by
  unfold handlePaymentIntentSucceeded
  rw [h]

theorem confirm_of_none (gw : Gateway) (db : DB) (ref : String)
    (h : findPendingByIntent db ref = none) :
    confirmPayment gw db ref = (ConfirmOutcome.notFound, db) := by
  unfold confirmPayment
  rw [h]

theorem mem_saveTokenPackage_cases (ts : List TokenPackage) (tp t2 : TokenPackage)
    (h : t2 ∈ saveTokenPackage ts tp) :
    t2 = tp ∨ (t2 ∈ ts ∧ ¬ t2.id = tp.id) := by
  unfold saveTokenPackage at h
  obtain ⟨t, ht, rfl⟩ := List.mem_map.mp h
  by_cases hid : t.id = tp.id
  · left; rw [if_pos hid]
  · right; rw [if_neg hid]; exact ⟨ht, hid⟩

theorem InvoiceGrowth_any (db : DB) (op : Op) : InvoiceGrowth db op := by
  unfold InvoiceGrowth
  cases op with
  | settleSuccess i c =>
      cases hfind : findPendingByIntent db i with
      | none =>
          left
          show (handlePaymentIntentSucceeded db i c).invoices = db.invoices
          rw [handleSucceeded_of_none db i c hfind]
      | some p =>
          obtain ⟨hm, _, hpend⟩ := findPending_facts hfind
          have happly : applyOp db (Op.settleSuccess i c) =
              commitSettlement db
                { p with status := PaymentStatus.completed, stripeChargeId := c,
                         updatedAt := db.now } := by
            show handlePaymentIntentSucceeded db i c = _
            unfold handlePaymentIntentSucceeded
            rw [hfind]
          right
          refine ⟨settleInvoice
              { p with status := PaymentStatus.completed, stripeChargeId := c,
                       updatedAt := db.now }, p, hm, hpend, ?_, rfl, rfl, rfl⟩
          rw [happly]
          rfl
  | settleFailure i =>
      left
      show (handlePaymentIntentFailed db i).invoices = db.invoices
      unfold handlePaymentIntentFailed
      split
      · rfl
      · rfl
  | checkoutCompleted s piRef st =>
      cases hfind : findPendingByRefs db (s :: piRef.toList) with
      | none =>
          left
          show (handleCheckoutSessionCompleted db s piRef st).invoices = db.invoices
          unfold handleCheckoutSessionCompleted
          rw [hfind]
      | some p =>
          obtain ⟨hm, hpend⟩ := findPendingRefs_facts hfind
          by_cases hst : st = "paid"
          · have happly : applyOp db (Op.checkoutCompleted s piRef st) =
                commitSettlement db
                  { p with status := PaymentStatus.completed,
                           stripePaymentIntentId := piRef.getD p.stripePaymentIntentId,
                           updatedAt := db.now } := by
              show handleCheckoutSessionCompleted db s piRef st = _
              unfold handleCheckoutSessionCompleted
              rw [hfind]
              simp [hst]
            right
            refine ⟨settleInvoice
                { p with status := PaymentStatus.completed,
                         stripePaymentIntentId := piRef.getD p.stripePaymentIntentId,
                         updatedAt := db.now }, p, hm, hpend, ?_, rfl, rfl, rfl⟩
            rw [happly]
            rfl
          · left
            show (handleCheckoutSessionCompleted db s piRef st).invoices = db.invoices
            unfold handleCheckoutSessionCompleted
            rw [hfind]
            simp [hst]
  | confirm gw ref =>
      rcases confirm_snd_cases gw db ref with heq | ⟨p, ch, hfind, heq⟩
      · left
        show (confirmPayment gw db ref).2.invoices = db.invoices
        rw [heq]
      · obtain ⟨hm, _, hpend⟩ := findPending_facts hfind
        right
        refine ⟨settleInvoice
            { p with status := PaymentStatus.completed, stripeChargeId := ch,
                     updatedAt := db.now }, p, hm, hpend, ?_, rfl, rfl, rfl⟩
        show (confirmPayment gw db ref).2.invoices = _
        rw [heq]
        rfl

/-- C7: every inbound webhook request whose signature header is absent or
whose signature fails verification against the mode-appropriate secret is
answered 400 and performs zero database writes: the state is returned
unchanged, so no payment, balance, ledger or invoice state changes. -/
theorem webhook_bad_signature_rejected (db : DB) :
    stripeWebhook db WebhookRequest.missingSignature = (400, db) ∧
    stripeWebhook db WebhookRequest.badSignature = (400, db) :=
  ⟨rfl, rfl⟩

/-- C8: a validly signed webhook whose event type is not one of the three
recognized kinds is answered 200 with no state change; the endpoint never
returns a non-2xx status for an event type it does not understand. -/
theorem webhook_unrecognized_accepted (db : DB) (t : String) :
    stripeWebhook db (WebhookRequest.signed (StripeEvent.unrecognized t)) = (200, db) :=
  rfl

/-- C6: `settle_failure` on a pending payment replaces only that payment's
row, setting status to failed and bumping `updated_at`, and leaves users,
ledger, invoices and the catalog untouched; on a reference with no pending
payment (already completed or already failed) it leaves the entire state
unchanged. -/
theorem settle_failure_frame (db : DB) (ref : String) :
    (∀ p, findPendingByIntent db ref = some p →
      handlePaymentIntentFailed db ref =
        { db with
          payments := savePayment db.payments
            ({ p with status := PaymentStatus.failed, updatedAt := db.now }),
          now := db.now + 1 }) ∧
    (findPendingByIntent db ref = none → handlePaymentIntentFailed db ref = db) := by
  constructor
  · intro p hfind
    unfold handlePaymentIntentFailed
    rw [hfind]
    rfl
  · intro hnone
    unfold handlePaymentIntentFailed
    rw [hnone]

/-- Witness for `settle_failure_frame`: on the concrete pending payment the
failure write flips the row and bumps the clock; on the same state with the
payment already completed it is a no-op. -/
theorem settle_failure_frame_witness :
    handlePaymentIntentFailed exDb "pi_1" =
      { exDb with
        payments := savePayment exDb.payments
          ({ exPayment with status := PaymentStatus.failed, updatedAt := exDb.now }),
        now := exDb.now + 1 } ∧
    handlePaymentIntentFailed exDbCompleted "pi_1" = exDbCompleted :=
  ⟨(settle_failure_frame exDb "pi_1").1 exPayment (by decide),
   (settle_failure_frame exDbCompleted "pi_1").2 (by decide)⟩

/-- C2: for every structurally well-formed state whose balances already
equal the signed sums of their ledger entries, any sequence of settlement
operations (webhook success, webhook failure, checkout completion, client
confirmation) preserves the invariant: every account's balance equals the
sum of the signed amounts of its ledger entries, and every committed ledger
entry satisfies `balance_after = balance_before + signed(amount, kind)`. -/
theorem ledger_balance_invariant (db : DB) (ops : List Op)
    (hwf : WF db) (hinv : LedgerInv db) :
    LedgerInv (run db ops) :=
  LedgerInv_run db ops hwf hinv

/-- Witness for `ledger_balance_invariant` at a concrete state and a
concrete two-operation sequence. -/
theorem ledger_balance_invariant_witness : LedgerInv (run exDb exOps) :=
  ledger_balance_invariant exDb exOps
    (by unfold WF; decide) (by unfold LedgerInv; decide)

/-- C9 (amended): along any sequence of settlement operations from a
well-formed state, every invoice belongs to a completed payment, no payment
ever carries two invoices, and every invoice number is the deterministic
derivation `INV-` + first eight hex characters of the payment id,
uppercased; moreover one further operation either leaves the invoice table
unchanged or appends exactly one paid invoice for a payment that was
pending. Distinct settled payments receive distinct invoice numbers only
when their ids differ within the first eight hex characters (see the
counterexample for the collision). -/
theorem invoice_settlement_only (db : DB) (ops : List Op) (op : Op)
    (hwf : WF db) (hinv : InvoiceInv db) :
    InvoiceInv (run db ops) ∧ InvoiceGrowth (run db ops) op :=
  ⟨InvoiceInv_run db ops hwf hinv, InvoiceGrowth_any (run db ops) op⟩

/-- Witness for `invoice_settlement_only` at a concrete state, sequence and
follow-up operation. -/
theorem invoice_settlement_only_witness :
    InvoiceInv (run exDb exOps) ∧ InvoiceGrowth (run exDb exOps) (Op.settleFailure "pi_1") :=
  invoice_settlement_only exDb exOps (Op.settleFailure "pi_1")
    (by unfold WF; decide) (by unfold InvoiceInv; decide)

/-- C9 counterexample: two distinct payments whose UUID hex ids agree on the
first eight characters are both settled, and the two invoices created carry
the same invoice number, refuting "for every two distinct settled payments,
their invoice numbers differ". -/
theorem invoice_number_collision_cex :
    (run exDbAB [Op.settleSuccess "pi_a" none, Op.settleSuccess "pi_b" none]).invoices.map
        (fun i => i.invoiceNumber) = ["INV-00000000", "INV-00000000"] ∧
    (run exDbAB [Op.settleSuccess "pi_a" none, Op.settleSuccess "pi_b" none]).invoices.map
        (fun i => i.paymentId) =
      ["00000000aaaaaaaaaaaaaaaaaaaaaaaa", "00000000bbbbbbbbbbbbbbbbbbbbbbbb"] ∧
    ("00000000aaaaaaaaaaaaaaaaaaaaaaaa" : String) ≠ "00000000bbbbbbbbbbbbbbbbbbbbbbbb" := by
  refine ⟨?_, ?_, ?_⟩
  · decide
  · decide
  · decide

/-- C3: settling a pending payment credits exactly the payment's token
amount: the user's new balance is the old balance plus `token_amount`,
exactly one ledger entry is appended (kind purchase, amount `token_amount`,
`balance_before` the old balance, `balance_after` the new one,
`reference_id` the payment id), exactly one invoice is appended (linked to
that payment, status paid), and the payment row transitions to completed. -/
theorem settle_success_effects (db : DB) (ref : String) (chargeId : Option String)
    (p : Payment) (u : User)
    (hfind : findPendingByIntent db ref = some p)
    (hu : db.users.find? (fun v => decide (v.id = p.userId)) = some u) :
    getBalance (handlePaymentIntentSucceeded db ref chargeId).users p.userId =
      u.balance + p.tokenAmount ∧
    (handlePaymentIntentSucceeded db ref chargeId).transactions =
      db.transactions ++
        [{ userId := p.userId, transactionType := TransactionType.purchase,
           amount := p.tokenAmount, balanceBefore := u.balance,
           balanceAfter := u.balance + p.tokenAmount, referenceId := p.id }] ∧
    (handlePaymentIntentSucceeded db ref chargeId).invoices =
      db.invoices ++
        [{ userId := p.userId, paymentId := p.id,
           invoiceNumber := invoiceNumber p.id, status := InvoiceStatus.paid }] ∧
    paymentById (handlePaymentIntentSucceeded db ref chargeId) p.id =
      some ({ p with status := PaymentStatus.completed, stripeChargeId := chargeId,
                     updatedAt := db.now }) := by
  have hm : p ∈ db.payments := (findPending_facts hfind).1
  have hgb : getBalance db.users p.userId = u.balance := by
    unfold getBalance
    rw [hu]
  have humem : u ∈ db.users := List.mem_of_find?_eq_some hu
  have huid : u.id = p.userId := by simpa using List.find?_some hu
  have hcred : getBalance (creditUser db.users p.userId p.tokenAmount) p.userId =
      u.balance + p.tokenAmount := by
    rw [getBalance_creditUser_self db.users p.userId p.tokenAmount ⟨u, humem, huid⟩, hgb]
  have happly : handlePaymentIntentSucceeded db ref chargeId =
      commitSettlement db
        ({ p with status := PaymentStatus.completed, stripeChargeId := chargeId,
                  updatedAt := db.now }) := by
    unfold handlePaymentIntentSucceeded
    rw [hfind]
  refine ⟨?_, ?_, ?_, ?_⟩
  · rw [happly]
    exact hcred
  · rw [happly]
    show db.transactions ++ [settleTransaction db _] = _
    simp [settleTransaction, hgb, hcred]
  · rw [happly]
    show db.invoices ++ [settleInvoice _] = _
    simp [settleInvoice]
  · rw [happly]
    have hsome : (db.payments.find? (fun q => decide (q.id = p.id))).isSome := by
      rw [List.find?_isSome]
      exact ⟨p, hm, by simp⟩
    obtain ⟨r, hr⟩ := Option.isSome_iff_exists.mp hsome
    have hrid : r.id = p.id := by simpa using List.find?_some hr
    show (savePayment db.payments _).find? (fun q => decide (q.id = p.id)) = _
    rw [find?_id_savePayment, hr]
    simp [hrid]

/-- Witness for `settle_success_effects` on the concrete state: balance 0,
token amount 1000, one ledger entry and one paid invoice created. -/
theorem settle_success_effects_witness :
    getBalance (handlePaymentIntentSucceeded exDb "pi_1" (some "ch_1")).users exPayment.userId =
      exUser.balance + exPayment.tokenAmount ∧
    (handlePaymentIntentSucceeded exDb "pi_1" (some "ch_1")).transactions =
      exDb.transactions ++
        [{ userId := exPayment.userId, transactionType := TransactionType.purchase,
           amount := exPayment.tokenAmount, balanceBefore := exUser.balance,
           balanceAfter := exUser.balance + exPayment.tokenAmount,
           referenceId := exPayment.id }] ∧
    (handlePaymentIntentSucceeded exDb "pi_1" (some "ch_1")).invoices =
      exDb.invoices ++
        [{ userId := exPayment.userId, paymentId := exPayment.id,
           invoiceNumber := invoiceNumber exPayment.id, status := InvoiceStatus.paid }] ∧
    paymentById (handlePaymentIntentSucceeded exDb "pi_1" (some "ch_1")) exPayment.id =
      some ({ exPayment with status := PaymentStatus.completed,
                             stripeChargeId := some "ch_1", updatedAt := exDb.now }) :=
  settle_success_effects exDb "pi_1" (some "ch_1") exPayment exUser (by decide) (by decide)

/-- C1 (amended): when the provider reference identifies a unique payment
row, the first `settle_success` transitions it and appends exactly one
ledger entry and one invoice; afterwards no pending payment carries the
reference, so every repeated webhook delivery is a no-op answered 200 with
the state unchanged, while a repeated client confirmation is a no-op
answered with the 404 error "Payment not found or already processed" — an
error response without the balance, not a success. -/
theorem settle_success_idempotent (db : DB) (ref : String) (c c2 : Option String)
    (gw : Gateway) (p : Payment)
    (huniq : RefUnique db ref)
    (hfind : findPendingByIntent db ref = some p) :
    (handlePaymentIntentSucceeded db ref c).transactions.length =
        db.transactions.length + 1 ∧
    (handlePaymentIntentSucceeded db ref c).invoices.length = db.invoices.length + 1 ∧
    findPendingByIntent (handlePaymentIntentSucceeded db ref c) ref = none ∧
    handlePaymentIntentSucceeded (handlePaymentIntentSucceeded db ref c) ref c2 =
      handlePaymentIntentSucceeded db ref c ∧
    stripeWebhook (handlePaymentIntentSucceeded db ref c)
        (WebhookRequest.signed (StripeEvent.paymentIntentSucceeded ref c2)) =
      (200, handlePaymentIntentSucceeded db ref c) ∧
    confirmPayment gw (handlePaymentIntentSucceeded db ref c) ref =
      (ConfirmOutcome.notFound, handlePaymentIntentSucceeded db ref c) := by
  have happly : handlePaymentIntentSucceeded db ref c =
      commitSettlement db
        ({ p with status := PaymentStatus.completed, stripeChargeId := c,
                  updatedAt := db.now }) := by
    unfold handlePaymentIntentSucceeded
    rw [hfind]
  have hnone : findPendingByIntent (handlePaymentIntentSucceeded db ref c) ref = none := by
    rw [happly]
    exact findPending_after_commit db ref p huniq hfind _ rfl (by intro h; cases h) rfl
  have hnoop : handlePaymentIntentSucceeded (handlePaymentIntentSucceeded db ref c) ref c2 =
      handlePaymentIntentSucceeded db ref c :=
    handleSucceeded_of_none _ ref c2 hnone
  refine ⟨?_, ?_, hnone, hnoop, ?_, ?_⟩
  · rw [happly]
    simp [commitSettlement]
  · rw [happly]
    simp [commitSettlement]
  · show (200, handlePaymentIntentSucceeded (handlePaymentIntentSucceeded db ref c) ref c2) = _
    rw [hnoop]
  · exact confirm_of_none gw _ ref hnone

/-- Witness for `settle_success_idempotent` on the concrete state. -/
theorem settle_success_idempotent_witness :
    (handlePaymentIntentSucceeded exDb "pi_1" (some "ch_1")).transactions.length =
        exDb.transactions.length + 1 ∧
    (handlePaymentIntentSucceeded exDb "pi_1" (some "ch_1")).invoices.length =
        exDb.invoices.length + 1 ∧
    findPendingByIntent (handlePaymentIntentSucceeded exDb "pi_1" (some "ch_1")) "pi_1" =
        none ∧
    handlePaymentIntentSucceeded (handlePaymentIntentSucceeded exDb "pi_1" (some "ch_1"))
        "pi_1" (some "ch_2") =
      handlePaymentIntentSucceeded exDb "pi_1" (some "ch_1") ∧
    stripeWebhook (handlePaymentIntentSucceeded exDb "pi_1" (some "ch_1"))
        (WebhookRequest.signed (StripeEvent.paymentIntentSucceeded "pi_1" (some "ch_2"))) =
      (200, handlePaymentIntentSucceeded exDb "pi_1" (some "ch_1")) ∧
    confirmPayment exGwOk (handlePaymentIntentSucceeded exDb "pi_1" (some "ch_1")) "pi_1" =
      (ConfirmOutcome.notFound, handlePaymentIntentSucceeded exDb "pi_1" (some "ch_1")) :=
  settle_success_idempotent exDb "pi_1" (some "ch_1") (some "ch_2") exGwOk exPayment
    (by unfold RefUnique; decide) (by decide)

/-- C1 counterexample: on the concrete state the first client confirmation
succeeds with balance 1000, but the second invocation for the same provider
reference is answered with the 404 `notFound` error ("Payment not found or
already processed"), not with a success carrying the final balance, refuting
the claim that every subsequent invocation is reported to the caller as
success with the same final balance. -/
theorem settle_success_idempotent_cex :
    (confirmPayment exGwOk exDb "pi_1").1 = ConfirmOutcome.confirmed 1000 ∧
    (confirmPayment exGwOk (confirmPayment exGwOk exDb "pi_1").2 "pi_1").1 =
      ConfirmOutcome.notFound := by
  constructor
  · decide
  · decide

/-- C4 (amended): for a pending payment that is NOT flagged test-mode, the
confirmation path settles only when the gateway reports success — whenever
the gateway reports any non-succeeded intent status, a non-paid checkout
session, or the retrieval fails, the request is rejected (400) and the state
is returned unchanged, so the payment remains pending. For payments flagged
test-mode in their metadata the code settles regardless of the reported
intent status or a failed retrieval (see the counterexample). -/
theorem confirm_requires_gateway_success (gw : Gateway) (db : DB) (ref : String)
    (p : Payment)
    (hfind : findPendingByIntent db ref = some p)
    (ht : p.testMode = false) :
    (startsWithCs ref = false → gw.retrieveIntent ref = none →
      confirmPayment gw db ref = (ConfirmOutcome.retrieveError, db)) ∧
    (∀ info, startsWithCs ref = false → gw.retrieveIntent ref = some info →
      ¬ info.status = "succeeded" →
      confirmPayment gw db ref = (ConfirmOutcome.notCompleted, db)) ∧
    (startsWithCs ref = true → gw.retrieveSession ref = none →
      confirmPayment gw db ref = (ConfirmOutcome.retrieveError, db)) ∧
    (∀ cs, startsWithCs ref = true → gw.retrieveSession ref = some cs →
      ¬ cs.paymentStatus = "paid" →
      confirmPayment gw db ref = (ConfirmOutcome.notCompleted, db)) ∧
    (∀ cs pid2, startsWithCs ref = true → gw.retrieveSession ref = some cs →
      cs.paymentStatus = "paid" → cs.paymentIntent = some pid2 →
      gw.retrieveIntent pid2 = none →
      confirmPayment gw db ref = (ConfirmOutcome.retrieveError, db)) ∧
    (∀ cs pid2 info, startsWithCs ref = true → gw.retrieveSession ref = some cs →
      cs.paymentStatus = "paid" → cs.paymentIntent = some pid2 →
      gw.retrieveIntent pid2 = some info → ¬ info.status = "succeeded" →
      confirmPayment gw db ref = (ConfirmOutcome.notCompleted, db)) := by
  refine ⟨?_, ?_, ?_, ?_, ?_, ?_⟩
  · intro hcs hretr
    unfold confirmPayment confirmViaIntent
    simp [hfind, hcs, hretr, ht]
  · intro info hcs hretr hst
    unfold confirmPayment confirmViaIntent
    simp [hfind, hcs, hretr, hst, ht]
  · intro hcs hsess
    unfold confirmPayment
    simp [hfind, hcs, hsess]
  · intro cs hcs hsess hps
    unfold confirmPayment
    simp [hfind, hcs, hsess, hps]
  · intro cs pid2 hcs hsess hps hpi hretr
    unfold confirmPayment confirmViaIntent
    simp [hfind, hcs, hsess, hps, hpi, hretr, ht]
  · intro cs pid2 info hcs hsess hps hpi hretr hst
    unfold confirmPayment confirmViaIntent
    simp [hfind, hcs, hsess, hps, hpi, hretr, hst, ht]

/-- Witness for `confirm_requires_gateway_success`: the gateway reports the
intent as `processing`, so the concrete live-mode confirmation is rejected
with the 400 "Payment has not been completed" error and writes nothing. -/
theorem confirm_requires_gateway_success_witness :
    confirmPayment exGwDeclined exDb "pi_1" = (ConfirmOutcome.notCompleted, exDb) :=
  (confirm_requires_gateway_success exGwDeclined exDb "pi_1" exPayment
      (by decide) (by decide)).2.1
    { status := "processing", chargeId := none } (by decide) (by decide) (by decide)

/-- C4 counterexample: on a payment flagged test-mode the confirmation path
settles even though the gateway reports the intent status `processing` (not
`succeeded`): the call returns success with the credited balance and the
payment row transitions to completed, refuting the claim that no settlement
occurs whenever the gateway reports a status other than succeeded/paid. -/
theorem confirm_requires_gateway_success_cex :
    (confirmPayment exGwDeclined exDbTest "pi_t").1 = ConfirmOutcome.confirmed 500 ∧
    paymentById (confirmPayment exGwDeclined exDbTest "pi_t").2 exPaymentTest.id =
      some ({ exPaymentTest with status := PaymentStatus.completed,
                                 updatedAt := exDbTest.now }) ∧
    exGwDeclined.retrieveIntent "pi_t" = some { status := "processing", chargeId := none } ∧
    ¬ ("processing" : String) = "succeeded" := by
  refine ⟨?_, ?_, ?_, ?_⟩
  · decide
  · decide
  · decide
  · decide

/-- C5: the pending lookup of both settlement handlers runs before (outside)
the `transaction.atomic()` block, so the check and the terminal-state flip
ARE separated by a race window. Under the interleaving check-success,
check-failure, commit-success, commit-failure on one pending payment, both
workers pass the pending check and both commit: the success commit credits
1000 tokens, writes the ledger entry and the invoice, and the failure commit
then overwrites the payment row to failed — the final state has the payment
`failed` WITH the balance credited, matching neither serialized order
(success-then-failure ends completed/credited; failure-then-success ends
failed/uncredited). This refutes the claim that the loser observes a
non-pending payment inside the same atomic unit and no-ops. -/
theorem concurrent_settlement_race :
    ((runInterleaved exDb exThreadSuccess exThreadFailure
        [false, true, false, true]).1.payments.map (fun q => q.status) =
      [PaymentStatus.failed] ∧
     getBalance (runInterleaved exDb exThreadSuccess exThreadFailure
        [false, true, false, true]).1.users "u1" = 1000 ∧
     (runInterleaved exDb exThreadSuccess exThreadFailure
        [false, true, false, true]).1.transactions.length = 1 ∧
     (runInterleaved exDb exThreadSuccess exThreadFailure
        [false, true, false, true]).1.invoices.length = 1) ∧
    (run exDb [Op.settleSuccess "pi_1" (some "ch_9"), Op.settleFailure "pi_1"]).payments.map
        (fun q => q.status) = [PaymentStatus.completed] ∧
    (run exDb [Op.settleFailure "pi_1", Op.settleSuccess "pi_1" (some "ch_9")]).payments.map
        (fun q => q.status) = [PaymentStatus.failed] ∧
    getBalance (run exDb [Op.settleFailure "pi_1",
        Op.settleSuccess "pi_1" (some "ch_9")]).users "u1" = 0 := by
  refine ⟨⟨?_, ?_, ?_, ?_⟩, ?_, ?_, ?_⟩
  · decide
  · decide
  · decide
  · decide
  · decide
  · decide
  · decide

/-- C10: when a purchase-initiation request has `is_custom` set and its
`token_package_id` matches an existing catalog package, the view overwrites
that stored package's `token_amount` and `price` in place with the
request-supplied values before creating the pending payment, and the created
payment snapshots the request-supplied values rather than the previously
stored catalog entry. -/
theorem custom_package_overwrite (db : DB) (uid : String) (req : CreateIntentRequest)
    (pidNew gwRef : String) (tp : TokenPackage) (ta pr : Int)
    (hc : req.isCustom = true)
    (hfind : db.tokenPackages.find? (fun t => decide (t.id = req.tokenPackageId)) = some tp)
    (hta : req.reqTokenAmount = some ta)
    (hpr : req.reqPrice = some pr) :
    CustomOverwriteSpec db uid req pidNew gwRef tp ta pr := by
  have htpid : tp.id = req.tokenPackageId := by simpa using List.find?_some hfind
  have htpmem : tp ∈ db.tokenPackages := List.mem_of_find?_eq_some hfind
  have hres : resolvePackage db req =
      some ({ tp with tokenAmount := ta, price := pr },
            { db with
              tokenPackages := saveTokenPackage db.tokenPackages
                ({ tp with tokenAmount := ta, price := pr }) }) := by
    unfold resolvePackage
    simp [hc, hfind, hta, hpr]
  have hcpi : createPaymentIntent db uid req pidNew gwRef =
      (some pidNew,
       { db with
         tokenPackages := saveTokenPackage db.tokenPackages
           ({ tp with tokenAmount := ta, price := pr }),
         payments := db.payments ++
           [{ id := pidNew, userId := uid, tokenPackageId := some tp.id,
              amount := pr, currency := tp.currency, tokenAmount := ta,
              status := PaymentStatus.pending, stripePaymentIntentId := gwRef,
              stripeChargeId := none, testMode := req.testMode, updatedAt := db.now }],
         now := db.now + 1 }) := by
    unfold createPaymentIntent
    rw [hres]
  unfold CustomOverwriteSpec
  refine ⟨?_, ?_, ?_⟩
  · intro t htmem hid
    rw [hcpi] at htmem
    rcases mem_saveTokenPackage_cases db.tokenPackages
        ({ tp with tokenAmount := ta, price := pr }) t htmem with rfl | ⟨_, hneq⟩
    · exact ⟨rfl, rfl⟩
    · exact absurd (hid.trans htpid.symm) hneq
  · refine ⟨{ tp with tokenAmount := ta, price := pr }, ?_, htpid⟩
    rw [hcpi]
    show _ ∈ saveTokenPackage db.tokenPackages _
    unfold saveTokenPackage
    refine List.mem_map.mpr ⟨tp, htpmem, ?_⟩
    exact if_pos rfl
  · rw [hcpi]

/-- Witness for `custom_package_overwrite`: the stored package `tp1`
(500 tokens, price 50) is overwritten to 9999 tokens at price 1, and the
created pending payment carries 9999 tokens at price 1. -/
theorem custom_package_overwrite_witness :
    CustomOverwriteSpec exDbPkg "u1" exCustomReq "p_new" "pi_new" exPackage 9999 1 :=
  custom_package_overwrite exDbPkg "u1" exCustomReq "p_new" "pi_new" exPackage 9999 1
    (by decide) (by decide) (by decide) (by decide)

end ScrapingBackend


